import Mathlib

/-!
Verification of the plan-execution / parameter-adaptation layer of the
PPrototype_playwright_MCP repository.

The Python sources are shallowly embedded:

* Python strings are modelled as `List Char` (or Lean `String` where no
  character-level reasoning is needed).  ASCII whitespace is assumed.
* pure helper functions (`adapt_screenshot`, `adapt_smart_click`, the
  script-wrapping logic of `patched_evaluate`, the URL normalisation of
  `playwright_navigate`, the registry filter of `_create_tools`) become
  pure Lean functions;
* the stateful executor loops of `MCPClient.process_natural_language` and
  `run_integrated` become recursive state-passing functions whose
  interactions with the outside world (browser call outcomes, the
  interactive retry prompt, the ad-hoc recovery strategies) are supplied
  by oracles.
-/

namespace PlaywrightMCP

/-! ## Python string primitives (over `List Char`) -/

/-- The single-quote character (written via its code point). -/
def sq : Char := Char.ofNat 39

/-- ASCII whitespace, as recognised by Python's `str.strip` and the `re`
module's `\s` class (restricted to ASCII). -/
def isPySpace (c : Char) : Bool :=
  c == ' ' || c == '\t' || c == '\n' || c == '\x0d' || c == '\x0b' || c == '\x0c'

/-- Characters of a Lean string literal, used to transcribe Python string
literals. -/
def chars (s : String) : List Char := s.data

/-- Python `s.startswith(pre)`. -/
def pyStartsWith : List Char → List Char → Bool
  | _, [] => true
  | [], _ :: _ => false
  | c :: cs, p :: ps => p == c && pyStartsWith cs ps

/-- Python `pat in s` (substring containment). -/
def pyContains : List Char → List Char → Bool
  | [], pat => pyStartsWith [] pat
  | c :: cs, pat => pyStartsWith (c :: cs) pat || pyContains cs pat

/-- Python `s.endswith(suf)`. -/
def pyEndsWith (s suf : List Char) : Bool :=
  pyStartsWith s.reverse suf.reverse

/-- Remove trailing Python whitespace. -/
def dropTrailingWs (s : List Char) : List Char :=
  ((s.reverse).dropWhile isPySpace).reverse

/-- Python `s.strip()`. -/
def pyStrip (s : List Char) : List Char :=
  dropTrailingWs (s.dropWhile isPySpace)

/-- Python `s.startswith(pre)` on whole strings (kernel-reducible). -/
def strStartsWith (s pre : String) : Bool := pyStartsWith s.data pre.data

theorem pyStartsWith_append_self (p t : List Char) :
    pyStartsWith (p ++ t) p = true := by
  induction p with
  | nil => cases t <;> rfl
  | cons c cs ih => simp [pyStartsWith, ih]

theorem pyStartsWith_iff_exists (s p : List Char) :
    pyStartsWith s p = true ↔ ∃ t, s = p ++ t := by
  constructor
  · intro h
    induction p generalizing s with
    | nil => exact ⟨s, rfl⟩
    | cons c cs ih =>
      cases s with
      | nil => simp [pyStartsWith] at h
      | cons a as =>
        simp only [pyStartsWith, Bool.and_eq_true, beq_iff_eq] at h
        obtain ⟨rfl, h2⟩ := h
        obtain ⟨t, rfl⟩ := ih as h2
        exact ⟨t, rfl⟩
  · rintro ⟨t, rfl⟩
    exact pyStartsWith_append_self p t

theorem pyContains_of_pyStartsWith {s p : List Char}
    (h : pyStartsWith s p = true) : pyContains s p = true := by
  cases s with
  | nil => simpa [pyContains] using h
  | cons c cs => simp [pyContains, h]

theorem pyEndsWith_append_self (l suf : List Char) :
    pyEndsWith (l ++ suf) suf = true := by
  simp only [pyEndsWith, List.reverse_append]
  exact pyStartsWith_append_self suf.reverse l.reverse

theorem dropWhile_append_of_forall_neg {q : Char → Bool} {b : List Char}
    (hb : ∀ x ∈ b, q x = false) (a : List Char) :
    (a ++ b).dropWhile q = a.dropWhile q ++ b := by
  induction a with
  | nil =>
    cases b with
    | nil => simp
    | cons c cs => simp [List.dropWhile_cons, hb c (by simp)]
  | cons c cs ih =>
    by_cases hc : q c = true
    · simp [List.dropWhile_cons, hc, ih]
    · simp at hc
      simp [List.dropWhile_cons, hc]

/-- Stripping preserves a leading, whitespace-free prefix. -/
theorem pyStartsWith_pyStrip {s p : List Char}
    (hp : ∀ c ∈ p, isPySpace c = false)
    (h : pyStartsWith s p = true) :
    pyStartsWith (pyStrip s) p = true := by
  obtain ⟨t, rfl⟩ := (pyStartsWith_iff_exists s p).mp h
  cases p with
  | nil => cases pyStrip ([] ++ t) <;> rfl
  | cons c cs =>
    have hc : isPySpace c = false := hp c (by simp)
    have h1 : ((c :: cs) ++ t).dropWhile isPySpace = (c :: cs) ++ t := by
      simp [List.dropWhile_cons, hc]
    have h2 : ∀ x ∈ (c :: cs).reverse, isPySpace x = false := by
      intro x hx
      exact hp x (List.mem_reverse.mp hx)
    unfold pyStrip dropTrailingWs
    rw [h1]
    rw [List.reverse_append]
    rw [dropWhile_append_of_forall_neg h2]
    rw [List.reverse_append, List.reverse_reverse]
    exact pyStartsWith_append_self (c :: cs) _

/-! ## C10: URL scheme normalisation in `PlaywrightTools.playwright_navigate`
(`exp_tools.py` lines 1496-1499):

    if not url.startswith(('http://', 'https://')):
        url = 'https://' + url
-/

def normalizeNavUrl (url : String) : String :=
  if strStartsWith url "http://" || strStartsWith url "https://" then url
  else "https://" ++ url

/-- C10: a url string passed to `playwright_navigate` that starts with
neither `http://` nor `https://` is navigated to as `'https://' + url`,
and a url already carrying either scheme is used unchanged. -/
theorem C10_navigate_scheme (url : String) :
    (strStartsWith url "http://" = false → strStartsWith url "https://" = false →
      normalizeNavUrl url = "https://" ++ url)
    ∧ (strStartsWith url "http://" = true ∨ strStartsWith url "https://" = true →
      normalizeNavUrl url = url) := by
  constructor
  · intro h1 h2
    simp [normalizeNavUrl, h1, h2]
  · intro h
    rcases h with h | h <;> simp [normalizeNavUrl, h]

/-- C10 witness: concrete evaluations at a bare domain and at each scheme. -/
theorem C10_navigate_scheme_witness :
    normalizeNavUrl "example.com" = "https://example.com"
    ∧ normalizeNavUrl "http://a.org" = "http://a.org"
    ∧ normalizeNavUrl "https://b.io" = "https://b.io" :=
  ⟨(C10_navigate_scheme "example.com").1 (by decide) (by decide),
   (C10_navigate_scheme "http://a.org").2 (Or.inl (by decide)),
   (C10_navigate_scheme "https://b.io").2 (Or.inr (by decide))⟩

/-! ## C9: `PlaywrightTools.cleanup` (`exp_tools.py` lines 177-200)

`cleanup` closes every page still open, clears `self.pages`, and touches
nothing else: `self.playwright`, `self.browser`, `self.context` and
`self.browser_initialized` are never assigned.  Browser handles are
modelled as opaque numbers; a page is an id plus its closed flag.  The
model returns the new state together with the final handles of the pages
that were in the list (reflecting the `page.close()` effects). -/

structure PageHandle where
  id : Nat
  closed : Bool
deriving DecidableEq

structure ToolsState where
  playwright : Option Nat
  browser : Option Nat
  context : Option Nat
  pages : List PageHandle
  browser_initialized : Bool
deriving DecidableEq

/-- Effect of the loop body `if page and not page.is_closed(): await page.close()`. -/
def closePage (p : PageHandle) : PageHandle :=
  if p.closed then p else { p with closed := true }

def cleanup (s : ToolsState) : ToolsState × List PageHandle :=
  ({ s with pages := [] }, s.pages.map closePage)

/-- C9: after `cleanup`, every previously listed page has been closed and
the pages list is empty, while the browser, context, playwright handle and
the `browser_initialized` flag are unchanged. -/
theorem C9_cleanup_keeps_browser (s : ToolsState) :
    (cleanup s).1.pages = []
    ∧ (∀ p ∈ (cleanup s).2, p.closed = true)
    ∧ (cleanup s).2.length = s.pages.length
    ∧ (cleanup s).1.browser = s.browser
    ∧ (cleanup s).1.context = s.context
    ∧ (cleanup s).1.playwright = s.playwright
    ∧ (cleanup s).1.browser_initialized = s.browser_initialized := by
  refine ⟨rfl, ?_, by simp [cleanup], rfl, rfl, rfl, rfl⟩
  intro p hp
  simp only [cleanup, List.mem_map] at hp
  obtain ⟨q, _, rfl⟩ := hp
  unfold closePage
  by_cases h : q.closed = true
  · simp [h]
  · simp at h
    simp [h]

/-! ## C3: the Action Registry filter of `PlaywrightMCPServer._create_tools`
(`expiremental-new.py` lines 415-422):

    tool_methods = [name for name in dir(self.tools_instance)
                   if callable(getattr(self.tools_instance, name))
                   and name.startswith('playwright_')]

An object is modelled by its attribute surface: a list (in `dir` order) of
attribute names tagged with whether the attribute is callable. -/

structure Attr where
  name : String
  callable : Bool
deriving DecidableEq

def createToolMethodNames (attrs : List Attr) : List String :=
  (attrs.filter (fun a => a.callable && strStartsWith a.name "playwright_")).map
    (fun a => a.name)

/-- C3: `_create_tools` enumerates exactly the callable attributes whose
name starts with `playwright_`; inserting (or deleting) any block of
helper attributes whose names lack the prefix — underscore-prefixed or
otherwise — never changes the enumeration. -/
theorem C3_registry_prefix_filter :
    (∀ (pre mid post : List Attr),
        (∀ a ∈ mid, strStartsWith a.name "playwright_" = false) →
        createToolMethodNames (pre ++ mid ++ post) =
          createToolMethodNames (pre ++ post))
    ∧ (∀ (attrs : List Attr) (n : String),
        n ∈ createToolMethodNames attrs ↔
          ∃ a ∈ attrs, a.name = n ∧ a.callable = true ∧
            strStartsWith n "playwright_" = true) := by
  constructor
  · intro pre mid post h
    have hmid : mid.filter (fun a => a.callable && strStartsWith a.name "playwright_") = [] := by
      rw [List.filter_eq_nil_iff]
      intro a ha
      simp [h a ha]
    simp [createToolMethodNames, List.filter_append, hmid]
  · intro attrs n
    simp only [createToolMethodNames, List.mem_map, List.mem_filter,
      Bool.and_eq_true]
    constructor
    · rintro ⟨a, ⟨ha, hc, hp⟩, rfl⟩
      exact ⟨a, ha, rfl, hc, hp⟩
    · rintro ⟨a, ha, rfl, hc, hp⟩
      exact ⟨a, ⟨ha, hc, hp⟩, rfl⟩

/-- C3 witness: an underscore-prefixed helper and an unrelated callable do
not change the enumerated set. -/
theorem C3_registry_prefix_filter_witness :
    createToolMethodNames
        [⟨"playwright_click", true⟩, ⟨"_ensure_browser", true⟩,
         ⟨"helper", true⟩, ⟨"playwright_fill", true⟩] =
      createToolMethodNames [⟨"playwright_click", true⟩, ⟨"playwright_fill", true⟩]
    ∧ "playwright_click" ∈
        createToolMethodNames [⟨"playwright_click", true⟩, ⟨"_ensure_browser", true⟩] := by
  constructor
  · exact C3_registry_prefix_filter.1 [⟨"playwright_click", true⟩]
      [⟨"_ensure_browser", true⟩, ⟨"helper", true⟩] [⟨"playwright_fill", true⟩]
      (by decide)
  · exact (C3_registry_prefix_filter.2
      [⟨"playwright_click", true⟩, ⟨"_ensure_browser", true⟩] "playwright_click").mpr
      ⟨⟨"playwright_click", true⟩, by simp, rfl, rfl, by decide⟩

/-! ## C6: the screenshot filename adaptation

Three cited implementations.  `playwright_adapter.py` lines 59-85
(identically `param_adapter.py` 69-91) test the suffix literally:

    if 'filename' not in kwargs:
        default_filename = f"screenshot_\x7bint(time.time())\x7d.png"
        kwargs['filename'] = default_filename
    if not kwargs['filename'].endswith('.png'):
        kwargs['filename'] += '.png'

while `patched_screenshot` (`playwright_function_patches.py` 162-169, the
method live on the tools instance after `apply_patches`) tests the suffix
case-insensitively:

    if filename is None:
        filename = f"screenshot_\x7bint(time.time())\x7d.png"
    if not filename.lower().endswith('.png'):
        filename += '.png'

Each is modelled as the function from the optional incoming `filename`
argument (plus the current timestamp) to the filename actually passed on.
Python's `str.lower` is modelled on ASCII (`Char.toLower`). -/

/-- The adapters' `if not kwargs['filename'].endswith('.png'): ... += '.png'`. -/
def ensurePng (f : List Char) : List Char :=
  if pyEndsWith f (chars ".png") then f else f ++ chars ".png"

def adapt_screenshot (now : Nat) (filename : Option (List Char)) : List Char :=
  ensurePng (match filename with
    | none => chars "screenshot_" ++ (Nat.repr now).data ++ chars ".png"
    | some f => f)

/-- Python `s.lower()` (ASCII). -/
def pyLower (s : List Char) : List Char := s.map Char.toLower

/-- `patched_screenshot`'s `if not filename.lower().endswith('.png'): ... += '.png'`. -/
def ensurePngCI (f : List Char) : List Char :=
  if pyEndsWith (pyLower f) (chars ".png") then f else f ++ chars ".png"

def patched_screenshot_filename (now : Nat) (filename : Option (List Char)) : List Char :=
  ensurePngCI (match filename with
    | none => chars "screenshot_" ++ (Nat.repr now).data ++ chars ".png"
    | some f => f)

theorem ensurePng_endsWith (f : List Char) :
    pyEndsWith (ensurePng f) (chars ".png") = true := by
  by_cases h : pyEndsWith f (chars ".png") = true <;>
    simp [ensurePng, h, pyEndsWith_append_self]

theorem ensurePng_of_endsWith {f : List Char}
    (h : pyEndsWith f (chars ".png") = true) : ensurePng f = f := by
  simp [ensurePng, h]

theorem adapt_screenshot_endsWith (now : Nat) (filename : Option (List Char)) :
    pyEndsWith (adapt_screenshot now filename) (chars ".png") = true := by
  unfold adapt_screenshot
  exact ensurePng_endsWith _

theorem pyLower_append (a b : List Char) :
    pyLower (a ++ b) = pyLower a ++ pyLower b := by
  simp [pyLower]

theorem pyLower_png : pyLower (chars ".png") = chars ".png" := by decide

theorem ensurePngCI_lower_endsWith (f : List Char) :
    pyEndsWith (pyLower (ensurePngCI f)) (chars ".png") = true := by
  by_cases h : pyEndsWith (pyLower f) (chars ".png") = true <;>
    simp [ensurePngCI, h, pyLower_append, pyLower_png, pyEndsWith_append_self]

theorem ensurePngCI_of_lower {f : List Char}
    (h : pyEndsWith (pyLower f) (chars ".png") = true) : ensurePngCI f = f := by
  simp [ensurePngCI, h]

theorem patched_screenshot_lower_endsWith (now : Nat) (fn : Option (List Char)) :
    pyEndsWith (pyLower (patched_screenshot_filename now fn)) (chars ".png") = true := by
  unfold patched_screenshot_filename
  exact ensurePngCI_lower_endsWith _

theorem generated_name_endsWith (now : Nat) :
    pyEndsWith (chars "screenshot_" ++ (Nat.repr now).data ++ chars ".png")
      (chars ".png") = true :=
  pyEndsWith_append_self _ _

theorem generated_name_lower_endsWith (now : Nat) :
    pyEndsWith (pyLower (chars "screenshot_" ++ (Nat.repr now).data ++ chars ".png"))
      (chars ".png") = true := by
  rw [pyLower_append, pyLower_append, pyLower_png]
  exact pyEndsWith_append_self _ _

/-- C6 counterexample: `patched_screenshot` — the screenshot method the
executor actually invokes after `apply_patches` — checks the suffix
case-insensitively, so the supplied filename `a.PNG`, which does not end
in `.png`, has nothing appended, contradicting the claim's second bullet. -/
theorem C6_screenshot_filename_cex :
    pyEndsWith (chars "a.PNG") (chars ".png") = false
    ∧ patched_screenshot_filename 7 (some (chars "a.PNG")) = chars "a.PNG" := by
  exact ⟨by decide, by decide⟩

/-- C6 (amended): a screenshot argument map with no filename receives a
generated filename ending in `.png`, and the adaptation is idempotent
across timestamps — in the adapter implementations and in the live
`patched_screenshot` alike.  A supplied filename not ending in `.png` has
`.png` appended by the adapters; `patched_screenshot` appends exactly when
the lower-cased filename does not end in `.png`, so a filename ending in
an uppercase variant such as `.PNG` is left unchanged. -/
theorem C6_screenshot_filename (now later : Nat) (f : List Char)
    (filename : Option (List Char)) :
    pyEndsWith (adapt_screenshot now none) (chars ".png") = true
    ∧ (pyEndsWith f (chars ".png") = false →
        adapt_screenshot now (some f) = f ++ chars ".png")
    ∧ adapt_screenshot later (some (adapt_screenshot now filename)) =
        adapt_screenshot now filename
    ∧ pyEndsWith (patched_screenshot_filename now none) (chars ".png") = true
    ∧ (pyEndsWith (pyLower f) (chars ".png") = false →
        patched_screenshot_filename now (some f) = f ++ chars ".png")
    ∧ (pyEndsWith (pyLower f) (chars ".png") = true →
        patched_screenshot_filename now (some f) = f)
    ∧ patched_screenshot_filename later
        (some (patched_screenshot_filename now filename)) =
        patched_screenshot_filename now filename := by
  refine ⟨adapt_screenshot_endsWith now none, ?_, ?_, ?_, ?_, ?_, ?_⟩
  · intro h
    simp [adapt_screenshot, ensurePng, h]
  · show ensurePng (adapt_screenshot now filename) = adapt_screenshot now filename
    exact ensurePng_of_endsWith (adapt_screenshot_endsWith now filename)
  · show pyEndsWith (ensurePngCI (chars "screenshot_" ++ (Nat.repr now).data ++ chars ".png"))
        (chars ".png") = true
    rw [ensurePngCI_of_lower (generated_name_lower_endsWith now)]
    exact generated_name_endsWith now
  · intro h
    simp [patched_screenshot_filename, ensurePngCI, h]
  · intro h
    show ensurePngCI f = f
    exact ensurePngCI_of_lower h
  · show ensurePngCI (patched_screenshot_filename now filename) =
        patched_screenshot_filename now filename
    exact ensurePngCI_of_lower (patched_screenshot_lower_endsWith now filename)

/-- C6 witness: concrete runs at timestamp 7 — `shot` gets the suffix in
both implementations, `b.PNG` is left unchanged by `patched_screenshot`. -/
theorem C6_screenshot_filename_witness :
    pyEndsWith (chars "shot") (chars ".png") = false
    ∧ adapt_screenshot 7 (some (chars "shot")) = chars "shot.png"
    ∧ adapt_screenshot 9 (some (adapt_screenshot 7 (some (chars "shot")))) =
        adapt_screenshot 7 (some (chars "shot"))
    ∧ pyEndsWith (pyLower (chars "shot")) (chars ".png") = false
    ∧ patched_screenshot_filename 7 (some (chars "shot")) = chars "shot.png"
    ∧ pyEndsWith (pyLower (chars "b.PNG")) (chars ".png") = true
    ∧ patched_screenshot_filename 7 (some (chars "b.PNG")) = chars "b.PNG" := by
  refine ⟨by decide, ?_, (C6_screenshot_filename 7 9 (chars "shot") (some (chars "shot"))).2.2.1,
    by decide, ?_, by decide,
    (C6_screenshot_filename 7 9 (chars "b.PNG") none).2.2.2.2.2.1 (by decide)⟩
  · have h := (C6_screenshot_filename 7 9 (chars "shot") none).2.1 (by decide)
    simpa using h
  · have h := (C6_screenshot_filename 7 9 (chars "shot") none).2.2.2.2.1 (by decide)
    simpa using h

/-! ## C2: script wrapping in `patched_evaluate`
(`playwright_function_patches.py` lines 259-272):

    is_function = (
        actual_script.strip().startswith("() =>") or
        actual_script.strip().startswith("function") or
        (actual_script.strip().startswith("(") and "=>" in actual_script))
    if not is_function and "return" in actual_script:
        actual_script = f"() => \x7b\x7b \x7bactual_script\x7d \x7d\x7d"
-/

def is_function_expr (s : List Char) : Bool :=
  pyStartsWith (pyStrip s) (chars "() =>")
  || pyStartsWith (pyStrip s) (chars "function")
  || (pyStartsWith (pyStrip s) (chars "(") && pyContains s (chars "=>"))

def wrapEvaluateScript (s : List Char) : List Char :=
  if !is_function_expr s && pyContains s (chars "return") then
    chars "() => \x7b " ++ s ++ chars " \x7d"
  else s

theorem pyStartsWith_false_of_head_ne {c d : Char} {l p : List Char}
    (h : (d == c) = false) : pyStartsWith (c :: l) (d :: p) = false := by
  simp [pyStartsWith, h]

/-- A script starting with `return` does not pass the function-expression test. -/
theorem is_function_expr_of_return {s : List Char}
    (h : pyStartsWith s (chars "return") = true) : is_function_expr s = false := by
  have hws : ∀ c ∈ chars "return", isPySpace c = false := by decide
  have hs := pyStartsWith_pyStrip hws h
  obtain ⟨t, ht⟩ := (pyStartsWith_iff_exists _ _).mp hs
  have h1 : pyStrip s = 'r' :: (chars "eturn" ++ t) := ht
  have hA : pyStartsWith (pyStrip s) (chars "() =>") = false := by
    rw [h1]; exact pyStartsWith_false_of_head_ne (by decide)
  have hB : pyStartsWith (pyStrip s) (chars "function") = false := by
    rw [h1]; exact pyStartsWith_false_of_head_ne (by decide)
  have hC : pyStartsWith (pyStrip s) (chars "(") = false := by
    rw [h1]; exact pyStartsWith_false_of_head_ne (by decide)
  simp [is_function_expr, hA, hB, hC]

/-- C2: a script body that is a bare `return` statement (it starts with
`return`) is wrapped into `() => \x7b <body> \x7d`; a body already passing the
function/arrow-function test is passed through unchanged; a body with no
`return` substring is passed through unchanged. -/
theorem C2_evaluate_script_wrapping (s : List Char) :
    (pyStartsWith s (chars "return") = true →
      wrapEvaluateScript s = chars "() => \x7b " ++ s ++ chars " \x7d")
    ∧ (is_function_expr s = true → wrapEvaluateScript s = s)
    ∧ (pyContains s (chars "return") = false → wrapEvaluateScript s = s) := by
  refine ⟨?_, ?_, ?_⟩
  · intro h
    have h1 := is_function_expr_of_return h
    have h2 := pyContains_of_pyStartsWith h
    simp [wrapEvaluateScript, h1, h2]
  · intro h
    simp [wrapEvaluateScript, h]
  · intro h
    simp [wrapEvaluateScript, h]

/-- C2 witness: the three shapes at concrete scripts. -/
theorem C2_evaluate_script_wrapping_witness :
    wrapEvaluateScript (chars "return 1;") =
      chars "() => \x7b " ++ chars "return 1;" ++ chars " \x7d"
    ∧ wrapEvaluateScript (chars "() => 5") = chars "() => 5"
    ∧ wrapEvaluateScript (chars "1 + 2") = chars "1 + 2" :=
  ⟨(C2_evaluate_script_wrapping (chars "return 1;")).1 (by decide),
   (C2_evaluate_script_wrapping (chars "() => 5")).2.1 (by decide),
   (C2_evaluate_script_wrapping (chars "1 + 2")).2.2 (by decide)⟩

/-! ## C8: which script parameter wins for `playwright_evaluate`

Two distinct code paths pick between the canonical `script` argument and
the alternate `pageFunction` argument:

* `MCPClient.process_natural_language` (`expiremental-new.py` 1060-1067)
  pops `pageFunction` and keeps `script` whenever `script` is present;
* `patched_evaluate` (`playwright_function_patches.py` line 247) computes
  `actual_script = script or pageFunction`, where Python's `or` falls
  through on a *falsy* left operand — in particular on the empty string.
-/

def selectScriptPNL (script pageFunction : Option String) : Option String :=
  match pageFunction with
  | some pf =>
    match script with
    | none => some pf
    | some s => some s
  | none => script

/-- Python `a or b` on optional strings (`None` and `""` are falsy). -/
def pyOrStr (a b : Option String) : Option String :=
  match a with
  | some s => if s = "" then b else some s
  | none => b

def selectScriptPatched (script pageFunction : Option String) : Option String :=
  pyOrStr script pageFunction

/-- C8 counterexample: with canonical `script = ""` and alternate
`pageFunction = "x"` both present, `patched_evaluate` passes on `"x"`,
not the canonical empty string — the claim fails for the empty string. -/
theorem C8_script_empty_canonical_cex :
    selectScriptPatched (some "") (some "x") = some "x"
    ∧ selectScriptPatched (some "") (some "x") ≠ some "" := by
  refine ⟨rfl, by decide⟩

/-- C8 (amended): when both `script` and `pageFunction` are supplied, the
plan-executor preprocessing always passes the canonical `script` value on
(empty string included), while `patched_evaluate` passes the canonical
value on exactly when it is non-empty and falls back to `pageFunction`
when the canonical value is the empty string. -/
theorem C8_script_canonical_wins (s p : String) :
    selectScriptPNL (some s) (some p) = some s
    ∧ (s ≠ "" → selectScriptPatched (some s) (some p) = some s)
    ∧ selectScriptPatched (some "") (some p) = some p := by
  refine ⟨rfl, ?_, by simp [selectScriptPatched, pyOrStr]⟩
  intro h
  simp [selectScriptPatched, pyOrStr, h]

/-- C8 witness: concrete non-empty and empty canonical values. -/
theorem C8_script_canonical_wins_witness :
    selectScriptPNL (some "document.title") (some "x") = some "document.title"
    ∧ selectScriptPatched (some "document.title") (some "x") = some "document.title"
    ∧ selectScriptPatched (some "") (some "y") = some "y" :=
  ⟨(C8_script_canonical_wins "document.title" "x").1,
   (C8_script_canonical_wins "document.title" "x").2.1 (by decide),
   (C8_script_canonical_wins "" "y").2.2⟩

/-! ## C5: selector-to-text extraction for smart click

Three cited implementations share the three `re.search` patterns and the
substring-gated `elif` chain but differ in what happens when no pattern
sets `text`:

* `playwright_adapter.adapt_smart_click` (lines 24-54, identically
  `param_adapter.py` 24-67): `if not text: text = selector` — raw-selector
  fallback;
* `patched_smart_click` (`playwright_function_patches.py` 81-100, the
  method live on the tools instance after `apply_patches`): the
  raw-selector assignment is the `else` of the `if/elif/elif` chain, so
  when a substring gate fires but its quoted pattern fails, `text` stays
  `None`;
* the inline fallback in `MCPClient.process_natural_language`
  (`expiremental-new.py` 1097-1122): `if not text: text =
  selector.replace("a:has-text(" + sq, "").replace(sq + ")", "")` — the
  selector with those two marker substrings stripped.

The patterns are hand-compiled: a match is attempted at every start
position in ascending order (leftmost match), the quantifier `[^']+` /
`[^'\"]+` being a maximal nonempty run of non-quote characters.
-/

def isQuote (c : Char) : Bool := c == sq || c == '"'

/-- One attempt of `:has-text\((sq)([^(sq)]+)(sq)\)` at the head of `s`. -/
def hasTextAt (s : List Char) : Option (List Char) :=
  if pyStartsWith s (chars ":has-text(" ++ [sq]) then
    let rest := s.drop 11
    let cap := rest.takeWhile (fun c => c != sq)
    let after := rest.drop cap.length
    if cap.isEmpty then none
    else if pyStartsWith after (sq :: chars ")") then some cap else none
  else none

/-- One attempt of `:text\(['\"]([^'\"]+)['\"]\)` at the head of `s`. -/
def textAt (s : List Char) : Option (List Char) :=
  if pyStartsWith s (chars ":text(") then
    match s.drop 6 with
    | [] => none
    | q :: rest =>
      if isQuote q then
        let cap := rest.takeWhile (fun c => !isQuote c)
        let after := rest.drop cap.length
        if cap.isEmpty then none
        else
          match after with
          | q2 :: c2 :: _ => if isQuote q2 && c2 == ')' then some cap else none
          | _ => none
      else none
  else none

/-- One attempt of `\[aria-label=['\"]([^'\"]+)['\"]\]` at the head of `s`. -/
def ariaAt (s : List Char) : Option (List Char) :=
  if pyStartsWith s (chars "[aria-label=") then
    match s.drop 12 with
    | [] => none
    | q :: rest =>
      if isQuote q then
        let cap := rest.takeWhile (fun c => !isQuote c)
        let after := rest.drop cap.length
        if cap.isEmpty then none
        else
          match after with
          | q2 :: c2 :: _ => if isQuote q2 && c2 == ']' then some cap else none
          | _ => none
      else none
  else none

/-- `re.search`: try the attempt at each start position, leftmost first. -/
def scanFirst (attempt : List Char → Option (List Char)) :
    Nat → List Char → Option (List Char)
  | 0, _ => none
  | fuel + 1, s =>
    match attempt s with
    | some r => some r
    | none =>
      match s with
      | [] => none
      | _ :: tail => scanFirst attempt fuel tail

def hasTextCapture (s : List Char) : Option (List Char) :=
  scanFirst hasTextAt (s.length + 1) s

def textCapture (s : List Char) : Option (List Char) :=
  scanFirst textAt (s.length + 1) s

def ariaCapture (s : List Char) : Option (List Char) :=
  scanFirst ariaAt (s.length + 1) s

/-- The text `adapt_smart_click` (`playwright_adapter.py`) derives from a
selector: the `elif` chain gates the second pattern on the substring
`:text(` and the third on the substring `aria-label`, and falls back to
the raw selector (`if not text: text = selector`). -/
def smartClickText (sel : List Char) : List Char :=
  match hasTextCapture sel with
  | some t => t
  | none =>
    if pyContains sel (chars ":text(") then
      match textCapture sel with
      | some t => t
      | none => sel
    else if pyContains sel (chars "aria-label") then
      match ariaCapture sel with
      | some t => t
      | none => sel
    else sel

/-- The value of `text` after the extraction block of `patched_smart_click`
(`playwright_function_patches.py` 81-100): here the raw-selector
assignment is the `else` of the `if/elif/elif` chain itself, so a fired
gate whose quoted pattern fails leaves `text` as `None`. -/
def patchedSmartClickText (sel : List Char) : Option (List Char) :=
  match hasTextCapture sel with
  | some t => some t
  | none =>
    if pyContains sel (chars ":text(") then
      match textCapture sel with
      | some t => some t
      | none => none
    else if pyContains sel (chars "aria-label") then
      match ariaCapture sel with
      | some t => some t
      | none => none
    else some sel

/-- Python `s.replace(old, new)`: every non-overlapping occurrence,
scanning left to right, the replacement text never rescanned.  Our call
sites pass a nonempty `old` (an empty `old` is returned unchanged). -/
def pyReplaceAux : Nat → List Char → List Char → List Char → List Char
  | 0, s, _, _ => s
  | fuel + 1, s, old, new =>
    if pyStartsWith s old then new ++ pyReplaceAux fuel (s.drop old.length) old new
    else
      match s with
      | [] => []
      | c :: tail => c :: pyReplaceAux fuel tail old new

def pyReplace (s old new : List Char) : List Char :=
  if old.isEmpty then s else pyReplaceAux (s.length + 1) s old new

/-- The inline fallback
`selector.replace("a:has-text(" + sq, "").replace(sq + ")", "")`. -/
def stripHasTextMarkers (sel : List Char) : List Char :=
  pyReplace (pyReplace sel (chars "a:has-text(" ++ [sq]) []) (sq :: chars ")") []

/-- The value of `text` after the inline adaptation block of
`process_natural_language` (`expiremental-new.py` 1097-1122): same gated
chain, with `if not text` falling back to the marker-stripped selector. -/
def inlineSmartClickText (sel : List Char) : List Char :=
  match hasTextCapture sel with
  | some t => t
  | none =>
    if pyContains sel (chars ":text(") then
      match textCapture sel with
      | some t => t
      | none => stripHasTextMarkers sel
    else if pyContains sel (chars "aria-label") then
      match ariaCapture sel with
      | some t => t
      | none => stripHasTextMarkers sel
    else stripHasTextMarkers sel

/-- The `selector` / `text` entries of the keyword-argument map of a
smart-click call (the only entries `adapt_smart_click` inspects). -/
structure ClickArgs where
  selector : Option (List Char)
  text : Option (List Char)
deriving DecidableEq

def adapt_smart_click (kw : ClickArgs) : ClickArgs :=
  match kw.selector, kw.text with
  | some sel, none => { selector := none, text := some (smartClickText sel) }
  | _, _ => kw

/-- Modelled from the spec's words for claim C5, for comparison with the
code: the canonical `text` is the capture of the *first matching pattern*
among `:has-text('X')`, `:text("X")` and `[aria-label="X"]`, falling back
to the raw selector only when none of the three patterns matches. -/
def specSmartClickText (sel : List Char) : List Char :=
  match hasTextCapture sel with
  | some t => t
  | none =>
    match textCapture sel with
    | some t => t
    | none =>
      match ariaCapture sel with
      | some t => t
      | none => sel

/-- C5 counterexample: on `div:text(x)[aria-label="Hi"]` the aria-label
pattern matches (capture `Hi`) while the first two patterns do not, so the
claim demands `text = "Hi"`; but every cited implementation hits the
`:text(` substring gate, whose quoted pattern fails: the adapter uses the
raw selector, the live `patched_smart_click` leaves `text` unset, and the
inline path uses the (here unchanged) marker-stripped selector. -/
theorem C5_smart_click_text_cex :
    (adapt_smart_click ⟨some (chars "div:text(x)[aria-label=\"Hi\"]"), none⟩).text
      = some (chars "div:text(x)[aria-label=\"Hi\"]")
    ∧ patchedSmartClickText (chars "div:text(x)[aria-label=\"Hi\"]") = none
    ∧ inlineSmartClickText (chars "div:text(x)[aria-label=\"Hi\"]")
        = chars "div:text(x)[aria-label=\"Hi\"]"
    ∧ hasTextCapture (chars "div:text(x)[aria-label=\"Hi\"]") = none
    ∧ textCapture (chars "div:text(x)[aria-label=\"Hi\"]") = none
    ∧ ariaCapture (chars "div:text(x)[aria-label=\"Hi\"]") = some (chars "Hi")
    ∧ specSmartClickText (chars "div:text(x)[aria-label=\"Hi\"]") = chars "Hi"
    ∧ chars "div:text(x)[aria-label=\"Hi\"]" ≠ chars "Hi" := by
  refine ⟨rfl, rfl, rfl, rfl, rfl, rfl, rfl, by decide⟩

/-- C5 (amended): for an argument map with a `selector` and no `text`, the
canonical `text` becomes the `:has-text` capture when that pattern
matches; otherwise the selector is routed by substring gates (`:text(`
first, then `aria-label`), later patterns never being consulted, and the
matching gate's quoted capture is used when its pattern matches — in all
three cited implementations.  When a fired gate's pattern fails, or no
gate fires, the implementations diverge: `adapt_smart_click` falls back to
the raw selector (and removes `selector` from the map), the live
`patched_smart_click` leaves `text` unset (`None`) on a failed gate and
uses the raw selector only when no gate fired, and the inline path falls
back to the selector with the `a:has-text('` and `')` marker substrings
stripped.  Maps already carrying a `text` argument (or no selector) pass
through `adapt_smart_click` unchanged. -/
theorem C5_smart_click_selector_to_text (sel t : List Char) (kw : ClickArgs) :
    ((adapt_smart_click ⟨some sel, none⟩).selector = none
      ∧ (adapt_smart_click ⟨some sel, none⟩).text = some (smartClickText sel))
    ∧ (hasTextCapture sel = some t → smartClickText sel = t)
    ∧ (hasTextCapture sel = none → pyContains sel (chars ":text(") = true →
        textCapture sel = some t → smartClickText sel = t)
    ∧ (hasTextCapture sel = none → pyContains sel (chars ":text(") = true →
        textCapture sel = none → smartClickText sel = sel)
    ∧ (hasTextCapture sel = none → pyContains sel (chars ":text(") = false →
        pyContains sel (chars "aria-label") = true →
        ariaCapture sel = some t → smartClickText sel = t)
    ∧ (hasTextCapture sel = none → pyContains sel (chars ":text(") = false →
        pyContains sel (chars "aria-label") = true →
        ariaCapture sel = none → smartClickText sel = sel)
    ∧ (hasTextCapture sel = none → pyContains sel (chars ":text(") = false →
        pyContains sel (chars "aria-label") = false → smartClickText sel = sel)
    ∧ (smartClickText sel = sel
        ∨ hasTextCapture sel = some (smartClickText sel)
        ∨ textCapture sel = some (smartClickText sel)
        ∨ ariaCapture sel = some (smartClickText sel))
    ∧ (kw.text ≠ none ∨ kw.selector = none → adapt_smart_click kw = kw)
    ∧ (hasTextCapture sel = some t →
        patchedSmartClickText sel = some t ∧ inlineSmartClickText sel = t)
    ∧ (hasTextCapture sel = none → pyContains sel (chars ":text(") = true →
        textCapture sel = some t →
        patchedSmartClickText sel = some t ∧ inlineSmartClickText sel = t)
    ∧ (hasTextCapture sel = none → pyContains sel (chars ":text(") = true →
        textCapture sel = none →
        patchedSmartClickText sel = none
          ∧ inlineSmartClickText sel = stripHasTextMarkers sel)
    ∧ (hasTextCapture sel = none → pyContains sel (chars ":text(") = false →
        pyContains sel (chars "aria-label") = true →
        ariaCapture sel = some t →
        patchedSmartClickText sel = some t ∧ inlineSmartClickText sel = t)
    ∧ (hasTextCapture sel = none → pyContains sel (chars ":text(") = false →
        pyContains sel (chars "aria-label") = true →
        ariaCapture sel = none →
        patchedSmartClickText sel = none
          ∧ inlineSmartClickText sel = stripHasTextMarkers sel)
    ∧ (hasTextCapture sel = none → pyContains sel (chars ":text(") = false →
        pyContains sel (chars "aria-label") = false →
        patchedSmartClickText sel = some sel
          ∧ inlineSmartClickText sel = stripHasTextMarkers sel)
    ∧ (patchedSmartClickText sel = some (smartClickText sel)
        ∨ (patchedSmartClickText sel = none ∧ smartClickText sel = sel)) := by
  refine ⟨⟨rfl, rfl⟩, ?_, ?_, ?_, ?_, ?_, ?_, ?_, ?_, ?_, ?_, ?_, ?_, ?_, ?_, ?_⟩
  · intro h; simp [smartClickText, h]
  · intro h1 h2 h3; simp [smartClickText, h1, h2, h3]
  · intro h1 h2 h3; simp [smartClickText, h1, h2, h3]
  · intro h1 h2 h3 h4; simp [smartClickText, h1, h2, h3, h4]
  · intro h1 h2 h3 h4; simp [smartClickText, h1, h2, h3, h4]
  · intro h1 h2 h3; simp [smartClickText, h1, h2, h3]
  · unfold smartClickText
    rcases hh : hasTextCapture sel with _ | a
    · by_cases h2 : pyContains sel (chars ":text(") = true
      · rcases ht : textCapture sel with _ | b
        · simp [h2, ht]
        · simp [h2, ht]
      · simp at h2
        by_cases h3 : pyContains sel (chars "aria-label") = true
        · rcases ha : ariaCapture sel with _ | c
          · simp [h2, h3, ha]
          · simp [h2, h3, ha]
        · simp at h3
          simp [h2, h3]
    · simp [hh]
  · intro h
    rcases h with h | h
    · rcases hk : kw.text with _ | v
      · exact absurd hk h
      · unfold adapt_smart_click
        rcases kw.selector <;> simp [hk]
    · unfold adapt_smart_click
      rw [h]
  · intro h
    exact ⟨by simp [patchedSmartClickText, h], by simp [inlineSmartClickText, h]⟩
  · intro h1 h2 h3
    exact ⟨by simp [patchedSmartClickText, h1, h2, h3],
      by simp [inlineSmartClickText, h1, h2, h3]⟩
  · intro h1 h2 h3
    exact ⟨by simp [patchedSmartClickText, h1, h2, h3],
      by simp [inlineSmartClickText, h1, h2, h3]⟩
  · intro h1 h2 h3 h4
    exact ⟨by simp [patchedSmartClickText, h1, h2, h3, h4],
      by simp [inlineSmartClickText, h1, h2, h3, h4]⟩
  · intro h1 h2 h3 h4
    exact ⟨by simp [patchedSmartClickText, h1, h2, h3, h4],
      by simp [inlineSmartClickText, h1, h2, h3, h4]⟩
  · intro h1 h2 h3
    exact ⟨by simp [patchedSmartClickText, h1, h2, h3],
      by simp [inlineSmartClickText, h1, h2, h3]⟩
  · unfold patchedSmartClickText smartClickText
    rcases hh : hasTextCapture sel with _ | a
    · by_cases h2 : pyContains sel (chars ":text(") = true
      · rcases ht : textCapture sel with _ | b
        · simp [h2, ht]
        · simp [h2, ht]
      · simp at h2
        by_cases h3 : pyContains sel (chars "aria-label") = true
        · rcases ha : ariaCapture sel with _ | c
          · simp [h2, h3, ha]
          · simp [h2, h3, ha]
        · simp at h3
          simp [h2, h3]
    · simp [hh]

/-- C5 witness: one concrete selector per branch, for each of the three
implementations. -/
theorem C5_smart_click_selector_to_text_witness :
    smartClickText (chars "a:has-text(" ++ [sq] ++ chars "Go" ++ [sq] ++ chars ")")
      = chars "Go"
    ∧ smartClickText (chars "button:text(\"Buy\")") = chars "Buy"
    ∧ smartClickText (chars "div:text(x)") = chars "div:text(x)"
    ∧ smartClickText (chars "[aria-label=\"Close\"]") = chars "Close"
    ∧ smartClickText (chars "[aria-label=x]") = chars "[aria-label=x]"
    ∧ smartClickText (chars "#submit") = chars "#submit"
    ∧ adapt_smart_click ⟨some (chars "#a"), some (chars "Go")⟩
        = ⟨some (chars "#a"), some (chars "Go")⟩
    ∧ (patchedSmartClickText
          (chars "a:has-text(" ++ [sq] ++ chars "Go" ++ [sq] ++ chars ")")
          = some (chars "Go")
        ∧ inlineSmartClickText
          (chars "a:has-text(" ++ [sq] ++ chars "Go" ++ [sq] ++ chars ")")
          = chars "Go")
    ∧ (patchedSmartClickText (chars "button:text(\"Buy\")") = some (chars "Buy")
        ∧ inlineSmartClickText (chars "button:text(\"Buy\")") = chars "Buy")
    ∧ (patchedSmartClickText (chars "div:text(x)") = none
        ∧ inlineSmartClickText (chars "div:text(x)")
          = stripHasTextMarkers (chars "div:text(x)"))
    ∧ (patchedSmartClickText (chars "[aria-label=\"Close\"]") = some (chars "Close")
        ∧ inlineSmartClickText (chars "[aria-label=\"Close\"]") = chars "Close")
    ∧ (patchedSmartClickText (chars "[aria-label=x]") = none
        ∧ inlineSmartClickText (chars "[aria-label=x]")
          = stripHasTextMarkers (chars "[aria-label=x]"))
    ∧ (patchedSmartClickText (chars "#submit") = some (chars "#submit")
        ∧ inlineSmartClickText (chars "#submit")
          = stripHasTextMarkers (chars "#submit")) :=
  ⟨(C5_smart_click_selector_to_text
      (chars "a:has-text(" ++ [sq] ++ chars "Go" ++ [sq] ++ chars ")")
      (chars "Go") ⟨none, none⟩).2.1 (by decide),
   (C5_smart_click_selector_to_text (chars "button:text(\"Buy\")")
      (chars "Buy") ⟨none, none⟩).2.2.1 (by decide) (by decide) (by decide),
   (C5_smart_click_selector_to_text (chars "div:text(x)")
      [] ⟨none, none⟩).2.2.2.1 (by decide) (by decide) (by decide),
   (C5_smart_click_selector_to_text (chars "[aria-label=\"Close\"]")
      (chars "Close") ⟨none, none⟩).2.2.2.2.1 (by decide) (by decide) (by decide) (by decide),
   (C5_smart_click_selector_to_text (chars "[aria-label=x]")
      [] ⟨none, none⟩).2.2.2.2.2.1 (by decide) (by decide) (by decide) (by decide),
   (C5_smart_click_selector_to_text (chars "#submit")
      [] ⟨none, none⟩).2.2.2.2.2.2.1 (by decide) (by decide) (by decide),
   (C5_smart_click_selector_to_text [] [] ⟨some (chars "#a"), some (chars "Go")⟩).2.2.2.2.2.2.2.2.1
      (Or.inl (by decide)),
   (C5_smart_click_selector_to_text
      (chars "a:has-text(" ++ [sq] ++ chars "Go" ++ [sq] ++ chars ")")
      (chars "Go") ⟨none, none⟩).2.2.2.2.2.2.2.2.2.1 (by decide),
   (C5_smart_click_selector_to_text (chars "button:text(\"Buy\")")
      (chars "Buy") ⟨none, none⟩).2.2.2.2.2.2.2.2.2.2.1 (by decide) (by decide) (by decide),
   (C5_smart_click_selector_to_text (chars "div:text(x)")
      [] ⟨none, none⟩).2.2.2.2.2.2.2.2.2.2.2.1 (by decide) (by decide) (by decide),
   (C5_smart_click_selector_to_text (chars "[aria-label=\"Close\"]")
      (chars "Close") ⟨none, none⟩).2.2.2.2.2.2.2.2.2.2.2.2.1
      (by decide) (by decide) (by decide) (by decide),
   (C5_smart_click_selector_to_text (chars "[aria-label=x]")
      [] ⟨none, none⟩).2.2.2.2.2.2.2.2.2.2.2.2.2.1
      (by decide) (by decide) (by decide) (by decide),
   (C5_smart_click_selector_to_text (chars "#submit")
      [] ⟨none, none⟩).2.2.2.2.2.2.2.2.2.2.2.2.2.2.1 (by decide) (by decide) (by decide)⟩

/-! ## C7: the four-stage JSON extraction of `process_natural_language`
(`expiremental-new.py` lines 823-935)

`json.loads` is embedded as a strict JSON parser (`jsonLoads`): values are
objects, arrays, strings (with escapes), numbers (kept as raw lexemes —
their numeric value is never inspected), `true`/`false`/`null`, and the
Python extensions `NaN`/`Infinity`/`-Infinity`.  The regular expressions
of the four stages are hand-compiled scanners with Python `re` semantics
(leftmost match, lazy quantifiers take the shortest run, `findall` and
`finditer` resume after the previous match). -/

inductive Json where
  | null
  | bool (b : Bool)
  | num (raw : List Char)
  | str (s : List Char)
  | arr (elems : List Json)
  | obj (fields : List (List Char × Json))

def hexVal (c : Char) : Option Nat :=
  let n := c.toNat
  if 48 ≤ n ∧ n ≤ 57 then some (n - 48)
  else if 97 ≤ n ∧ n ≤ 102 then some (n - 87)
  else if 65 ≤ n ∧ n ≤ 70 then some (n - 55)
  else none

def escChar : Char → Option Char
  | '"' => some '"'
  | '/' => some '/'
  | '\\' => some '\\'
  | 'n' => some '\n'
  | 't' => some '\t'
  | 'r' => some '\x0d'
  | 'b' => some '\x08'
  | 'f' => some '\x0c'
  | _ => none

/-- JSON string body after the opening quote: returns the decoded
characters and the remainder after the closing quote.  Raw control
characters are rejected (Python's strict mode). -/
def parseJStr : List Char → Option (List Char × List Char)
  | [] => none
  | c :: rest =>
    if c == '"' then some ([], rest)
    else if c == '\\' then
      match rest with
      | [] => none
      | e :: rest2 =>
        if e == 'u' then
          match rest2 with
          | a :: b :: c3 :: d :: rest3 =>
            match hexVal a, hexVal b, hexVal c3, hexVal d with
            | some x, some y, some z, some w =>
              match parseJStr rest3 with
              | some (cs, r) =>
                some (Char.ofNat (((x * 16 + y) * 16 + z) * 16 + w) :: cs, r)
              | none => none
            | _, _, _, _ => none
          | _ => none
        else
          match escChar e with
          | some ec =>
            match parseJStr rest2 with
            | some (cs, r) => some (ec :: cs, r)
            | none => none
          | none => none
    else if c.toNat < 32 then none
    else
      match parseJStr rest with
      | some (cs, r) => some (c :: cs, r)
      | none => none

def digitRun (s : List Char) : List Char := s.takeWhile (fun c => c.isDigit)

/-- Integer part per Python's JSON number regex `-?(?:0|[1-9]\d*)`. -/
def parseIntPart : List Char → Option (List Char × List Char)
  | [] => none
  | c :: rest =>
    if c == '0' then some ([c], rest)
    else if c.isDigit then
      let ds := digitRun rest
      some (c :: ds, rest.drop ds.length)
    else none

/-- A JSON number lexeme `(-?(?:0|[1-9]\d*))(\.\d+)?([eE][-+]?\d+)?`. -/
def parseNum (s : List Char) : Option (List Char × List Char) :=
  let negs : List Char × List Char :=
    match s with
    | '-' :: r => (['-'], r)
    | _ => ([], s)
  match parseIntPart negs.2 with
  | none => none
  | some (ip, r1) =>
    let fracs : List Char × List Char :=
      match r1 with
      | '.' :: r =>
        let ds := digitRun r
        if ds.isEmpty then ([], r1) else ('.' :: ds, r.drop ds.length)
      | _ => ([], r1)
    let exps : List Char × List Char :=
      match fracs.2 with
      | e :: r =>
        if e == 'e' || e == 'E' then
          let sgns : List Char × List Char :=
            match r with
            | c :: r5 => if c == '+' || c == '-' then ([c], r5) else ([], r)
            | [] => ([], r)
          let ds := digitRun sgns.2
          if ds.isEmpty then ([], fracs.2)
          else (e :: (sgns.1 ++ ds), sgns.2.drop ds.length)
        else ([], fracs.2)
      | [] => ([], fracs.2)
    some (negs.1 ++ ip ++ fracs.1 ++ exps.1, exps.2)

/-- JSON whitespace (Python's `json` WHITESPACE class `[ \t\n\r]*`). -/
def skipJWs (s : List Char) : List Char :=
  s.dropWhile (fun c => c == ' ' || c == '\t' || c == '\n' || c == '\x0d')

inductive PTask where
  | value
  | arrItems (acc : List Json)
  | objItems (acc : List (List Char × Json))

def parseJ : Nat → PTask → List Char → Option (Json × List Char)
  | 0, _, _ => none
  | fuel + 1, PTask.value, s =>
    match skipJWs s with
    | [] => none
    | '\x7b' :: r =>
      match skipJWs r with
      | '\x7d' :: r2 => some (Json.obj [], r2)
      | _ => parseJ fuel (PTask.objItems []) r
    | '[' :: r =>
      match skipJWs r with
      | ']' :: r2 => some (Json.arr [], r2)
      | _ => parseJ fuel (PTask.arrItems []) r
    | '"' :: r =>
      match parseJStr r with
      | some (cs, r2) => some (Json.str cs, r2)
      | none => none
    | s1 =>
      if pyStartsWith s1 (chars "true") then some (Json.bool true, s1.drop 4)
      else if pyStartsWith s1 (chars "false") then some (Json.bool false, s1.drop 5)
      else if pyStartsWith s1 (chars "null") then some (Json.null, s1.drop 4)
      else if pyStartsWith s1 (chars "NaN") then some (Json.num (chars "NaN"), s1.drop 3)
      else if pyStartsWith s1 (chars "Infinity") then
        some (Json.num (chars "Infinity"), s1.drop 8)
      else if pyStartsWith s1 (chars "-Infinity") then
        some (Json.num (chars "-Infinity"), s1.drop 9)
      else
        match parseNum s1 with
        | some (n, r) => some (Json.num n, r)
        | none => none
  | fuel + 1, PTask.arrItems acc, s =>
    match parseJ fuel PTask.value s with
    | none => none
    | some (v, r) =>
      match skipJWs r with
      | ',' :: r2 => parseJ fuel (PTask.arrItems (acc ++ [v])) r2
      | ']' :: r2 => some (Json.arr (acc ++ [v]), r2)
      | _ => none
  | fuel + 1, PTask.objItems acc, s =>
    match skipJWs s with
    | '"' :: r =>
      match parseJStr r with
      | none => none
      | some (key, r2) =>
        match skipJWs r2 with
        | ':' :: r4 =>
          match parseJ fuel PTask.value r4 with
          | none => none
          | some (v, r5) =>
            match skipJWs r5 with
            | ',' :: r7 => parseJ fuel (PTask.objItems (acc ++ [(key, v)])) r7
            | '\x7d' :: r7 => some (Json.obj (acc ++ [(key, v)]), r7)
            | _ => none
        | _ => none
    | _ => none

/-- `json.loads`: one JSON document, with nothing but whitespace around it.
Any two consecutive recursive steps of `parseJ` consume at least one input
character, so the fuel `2 * length + 4` never runs out. -/
def jsonLoads (s : List Char) : Option Json :=
  match parseJ (2 * s.length + 4) PTask.value s with
  | some (v, rest) => if (skipJWs rest).isEmpty then some v else none
  | none => none

/-- `isinstance(x, dict) and "tool_calls" in x`. -/
def jsonHasToolCalls : Json → Bool
  | Json.obj kvs => kvs.any (fun kv => kv.1 == chars "tool_calls")
  | _ => false

/-! ### Stage 1: fenced code blocks, `re.findall(r'```(?:json)?\s*(.*?)```', text, re.DOTALL)` -/

/-- Lazy `(.*?)` up to the next triple backtick: accumulated group plus the
remainder after the closing delimiter. -/
def findFenceClose : Nat → List Char → List Char → Option (List Char × List Char)
  | 0, _, _ => none
  | fuel + 1, acc, s =>
    if pyStartsWith s (chars "```") then some (acc, s.drop 3)
    else
      match s with
      | [] => none
      | c :: tail => findFenceClose fuel (acc ++ [c]) tail

def codeBlocksAux : Nat → List Char → List (List Char)
  | 0, _ => []
  | fuel + 1, s =>
    if pyStartsWith s (chars "```") then
      let afterOpen := s.drop 3
      let afterJson :=
        if pyStartsWith afterOpen (chars "json") then afterOpen.drop 4 else afterOpen
      let afterWs := afterJson.dropWhile isPySpace
      match findFenceClose (afterWs.length + 1) [] afterWs with
      | some (grp, rest) => grp :: codeBlocksAux fuel rest
      | none =>
        match s with
        | [] => []
        | _ :: tail => codeBlocksAux fuel tail
    else
      match s with
      | [] => []
      | _ :: tail => codeBlocksAux fuel tail

def findCodeBlocks (s : List Char) : List (List Char) := codeBlocksAux (s.length + 1) s

/-- Stage 1: first code block whose stripped content parses to an object
carrying `tool_calls`. -/
def stage1 (blocks : List (List Char)) : Option Json :=
  blocks.findSome? (fun b =>
    match jsonLoads (pyStrip b) with
    | some j => if jsonHasToolCalls j then some j else none
    | none => none)

/-! ### Stage 2: `re.search(r'\{\s*"tool_calls"\s*:\s*\[(.*?)\]\s*\}', text, re.DOTALL)` -/

/-- Lazy `(.*?)` up to the first `]` that is followed by `\s*` and `}`. -/
def lazyUntilBracketBrace : Nat → List Char → List Char → Option (List Char × List Char)
  | 0, _, _ => none
  | fuel + 1, acc, s =>
    match s with
    | [] => none
    | ']' :: rest =>
      match rest.dropWhile isPySpace with
      | '\x7d' :: rest2 => some (acc, rest2)
      | _ => lazyUntilBracketBrace fuel (acc ++ [']']) rest
    | c :: rest => lazyUntilBracketBrace fuel (acc ++ [c]) rest

/-- One attempt of the `tool_calls` pattern at the head of `s`, returning
the bracket group. -/
def toolCallsAt (s : List Char) : Option (List Char) :=
  match s with
  | '\x7b' :: r =>
    let r1 := r.dropWhile isPySpace
    if pyStartsWith r1 (chars "\"tool_calls\"") then
      match (r1.drop 12).dropWhile isPySpace with
      | ':' :: r3 =>
        match r3.dropWhile isPySpace with
        | '[' :: r5 =>
          match lazyUntilBracketBrace (r5.length + 1) [] r5 with
          | some (grp, _) => some grp
          | none => none
        | _ => none
      | _ => none
    else none
  | _ => none

/-- Stage 2: reconstruct `'\x7b"tool_calls": [' + group + ']\x7d'` from the
first match and try to parse it (only the first match is attempted). -/
def stage2 (s : List Char) : Option Json :=
  match scanFirst toolCallsAt (s.length + 1) s with
  | some grp => jsonLoads (chars "\x7b\"tool_calls\": [" ++ grp ++ chars "]\x7d")
  | none => none

/-! ### Stage 3: `re.finditer(r'(\{[\s\S]*?\})', text)`, skipping matches
shorter than 10 characters, first parse that is a dict with `tool_calls`. -/

def stage3Aux : Nat → List Char → Option Json
  | 0, _ => none
  | fuel + 1, s =>
    match s with
    | [] => none
    | '\x7b' :: r =>
      let inner := r.takeWhile (fun c => c != '\x7d')
      match r.drop inner.length with
      | '\x7d' :: rest =>
        let cand := '\x7b' :: (inner ++ ['\x7d'])
        if cand.length < 10 then stage3Aux fuel rest
        else
          match jsonLoads cand with
          | some j => if jsonHasToolCalls j then some j else stage3Aux fuel rest
          | none => stage3Aux fuel rest
      | _ => none
    | _ :: tail => stage3Aux fuel tail

def stage3 (s : List Char) : Option Json := stage3Aux (s.length + 1) s

/-! ### Stage 4: reconstruction of individual tool calls from the stage-1
blocks via
`re.finditer(r'\{\s*"tool"\s*:\s*"([^"]+)"\s*,\s*"arguments"\s*:\s*(\{[^}]+\})\s*\}', block, re.DOTALL)` -/

/-- One attempt of the tool-call fragment pattern at the head of `s`:
returns `((name, arguments lexeme), remainder after the match)`. -/
def toolFragAt (s : List Char) : Option ((List Char × List Char) × List Char) :=
  match s with
  | '\x7b' :: r =>
    let r1 := r.dropWhile isPySpace
    if pyStartsWith r1 (chars "\"tool\"") then
      match (r1.drop 6).dropWhile isPySpace with
      | ':' :: r3 =>
        match r3.dropWhile isPySpace with
        | '"' :: r5 =>
          let name := r5.takeWhile (fun c => c != '"')
          if name.isEmpty then none
          else
            match r5.drop name.length with
            | '"' :: r7 =>
              match r7.dropWhile isPySpace with
              | ',' :: r9 =>
                let r10 := r9.dropWhile isPySpace
                if pyStartsWith r10 (chars "\"arguments\"") then
                  match (r10.drop 11).dropWhile isPySpace with
                  | ':' :: r12 =>
                    match r12.dropWhile isPySpace with
                    | '\x7b' :: r14 =>
                      let inner := r14.takeWhile (fun c => c != '\x7d')
                      if inner.isEmpty then none
                      else
                        match r14.drop inner.length with
                        | '\x7d' :: r16 =>
                          match r16.dropWhile isPySpace with
                          | '\x7d' :: r18 =>
                            some ((name, '\x7b' :: (inner ++ ['\x7d'])), r18)
                          | _ => none
                        | _ => none
                    | _ => none
                  | _ => none
                else none
              | _ => none
            | _ => none
        | _ => none
      | _ => none
    else none
  | _ => none

def toolFragsAux : Nat → List Char → List (List Char × List Char)
  | 0, _ => []
  | fuel + 1, s =>
    match toolFragAt s with
    | some (frag, rest) => frag :: toolFragsAux fuel rest
    | none =>
      match s with
      | [] => []
      | _ :: tail => toolFragsAux fuel tail

/-- Stage 4: collect every fragment whose arguments lexeme parses, and
build `{"tool_calls": [...]}` if at least one was found. -/
def stage4 (blocks : List (List Char)) : Option Json :=
  let calls := (blocks.map (fun b =>
    (toolFragsAux (b.length + 1) b).filterMap (fun frag =>
      match jsonLoads frag.2 with
      | some args =>
        some (Json.obj [(chars "tool", Json.str frag.1), (chars "arguments", args)])
      | none => none))).flatten
  if calls.isEmpty then none
  else some (Json.obj [(chars "tool_calls", Json.arr calls)])

/-! ### The extraction pipeline (lines 834-927) -/

structure ParseFailure where
  status : String
  message : String
  raw_response : String

inductive ExtractOutcome where
  | plan (j : Json)
  | failure (f : ParseFailure)

def extractPlan (raw : String) : ExtractOutcome :=
  let blocks := findCodeBlocks raw.data
  match stage1 blocks with
  | some j => ExtractOutcome.plan j
  | none =>
    match stage2 raw.data with
    | some j => ExtractOutcome.plan j
    | none =>
      match stage3 raw.data with
      | some j => ExtractOutcome.plan j
      | none =>
        match (if blocks.isEmpty then none else stage4 blocks) with
        | some j => ExtractOutcome.plan j
        | none =>
          ExtractOutcome.failure ⟨"error", "Failed to parse LLM response as JSON", raw⟩

/-- C7: when all four extraction stages fail on a reply text,
`process_natural_language` returns the structured failure value — status
`error` with the raw reply under `raw_response` — rather than raising. -/
theorem C7_parse_failure (raw : String)
    (h1 : stage1 (findCodeBlocks raw.data) = none)
    (h2 : stage2 raw.data = none)
    (h3 : stage3 raw.data = none)
    (h4 : stage4 (findCodeBlocks raw.data) = none) :
    extractPlan raw = ExtractOutcome.failure
      ⟨"error", "Failed to parse LLM response as JSON", raw⟩ := by
  simp [extractPlan, h1, h2, h3, h4]

/-- C7 witness: a plain refusal sentence defeats all four stages. -/
theorem C7_parse_failure_witness :
    extractPlan "Sorry, I cannot generate a plan." = ExtractOutcome.failure
      ⟨"error", "Failed to parse LLM response as JSON",
        "Sorry, I cannot generate a plan."⟩ :=
  C7_parse_failure "Sorry, I cannot generate a plan." rfl rfl rfl rfl

/-! ## C1 / C4: the plan-executor loops

`MCPClient.process_natural_language` (`expiremental-new.py` 946-1205) and
`run_integrated` (1361-1658) run the same `while i < len(tool_calls)` loop
shape.  The embedding keeps everything that steers the loop — tool lookup,
the tool-not-found substitution block (alias table, nearest-name fallback,
`auto_execute` meta-tool), result recording, the shared recovery budget,
the inter-step bookkeeping and the navigation-retry prompt with its
`i -= 1` / `continue` arithmetic (Python's negative indexing included) —
and abstracts the world behind oracles:

* a `ToolCall` is represented by its tool name (its argument map steers
  only the values handed to the tool, never the loop control flow);
* each actual tool-method invocation draws the next `StepOutcome` from
  `World.outcome` (`ok` = result status `success`, `err` = any other
  returned status, `exc` = a raised exception);
* each ad-hoc recovery attempt (the alternative-selector / JavaScript
  click recoveries and the minimal-screenshot retry, which only toggle
  the already-appended record) draws from `World.recovers`;
* the interactive `input("... Retry? (y/n)")` answers are a finite list,
  an exhausted list reading as `n`.
-/

inductive StepOutcome where
  | ok
  | err
  | exc (msg : String)
deriving DecidableEq

inductive RecStatus where
  | completed
  | failed
deriving DecidableEq

/-- One entry of the `results` list (the fields the claims inspect). -/
structure ExecutionResult where
  tool : String
  status : RecStatus
  error : Option String
  recovered : Bool
deriving DecidableEq

structure World where
  attrs : List Attr
  outcome : Nat → StepOutcome
  recovers : Nat → Bool

structure ExecState where
  results : List ExecutionResult
  succ : Nat
  budget : Nat
  execN : Nat
  recN : Nat
deriving DecidableEq

def initExecState : ExecState := ⟨[], 0, 0, 0, 0⟩

/-- `getattr(obj, name, None)` finds something (methods are truthy). -/
def getattrFound (attrs : List Attr) (n : String) : Bool :=
  attrs.any (fun a => a.name == n)

/-- `[m for m in dir(obj) if callable(getattr(obj, m)) and not
m.startswith('_') and m.startswith('playwright_')]`. -/
def availableTools (attrs : List Attr) : List String :=
  (attrs.filter (fun a =>
    a.callable && !strStartsWith a.name "_" && strStartsWith a.name "playwright_")).map
    (fun a => a.name)

/-- `sum(1 for a, b in zip(n, t) if a != b) + abs(len(n) - len(t))`. -/
def strDistance (a b : String) : Nat :=
  ((a.data.zip b.data).filter (fun p => p.1 != p.2)).length
    + (a.data.length - b.data.length) + (b.data.length - a.data.length)

/-- The fold computing `closest_match` / `min_distance` (strict `<`
update keeps the earliest minimiser, matching source iteration order). -/
def closestTool (tool : String) : List String → Option (String × Nat) → Option (String × Nat)
  | [], acc => acc
  | t :: ts, acc =>
    let d := strDistance tool t
    closestTool tool ts
      (match acc with
       | none => some (t, d)
       | some (c, m) => if d < m then some (t, d) else some (c, m))

/-- The fixed `auto_corrections` substitution table. -/
def aliasLookup (n : String) : Option String :=
  if n == "playwright_type" then some "playwright_fill"
  else if n == "playwright_press" then some "playwright_press_key"
  else if n == "playwright_input" then some "playwright_fill"
  else if n == "playwright_search" then some "playwright_fill"
  else none

/-- The tool-not-found block shared by both loops (lines 959-1039 and
1374-1454): resolve the substitute name to record and the updated
recovery budget.  Whichever substitution fires, the loop then appends a
failed record carrying `"Tool not found: <original>"` and `continue`s —
the substituted method, although looked up, is never invoked. -/
def notFoundStep (attrs : List Attr) (budget : Nat) (orig : String) : String × Nat :=
  match aliasLookup orig with
  | some canon => (canon, budget)
  | none =>
    match closestTool orig (availableTools attrs) none with
    | some (c, d) =>
      if d ≤ 5 then
        if d ≤ 3 && budget < 2 then (c, budget + 1)
        else if getattrFound attrs "playwright_auto_execute" then
          ("playwright_auto_execute", budget)
        else (orig, budget)
      else (orig, budget)
    | none => (orig, budget)

/-- Python list indexing `l[i]` with negative-index wraparound. -/
def pyIndex {α : Type} (l : List α) (i : Int) : Option α :=
  if 0 ≤ i then l[i.toNat]?
  else if (-i).toNat ≤ l.length then l[l.length - (-i).toNat]? else none

/-- Result of one found-tool step: the updated executor state, the
remaining prompt answers, and the displacement of the loop index `i`
(`+1` normal advance; `0` a retried step re-run in place, from `i -= 1`
followed by the loop's `i += 1`; `-1` a `continue` that skipped the
`i += 1` after `i -= 1`). -/
structure StepRes where
  st : ExecState
  answers : List Bool
  offset : Int

/-- One found-tool step of the `run_integrated` loop (`expiremental-new.py`
1456-1658): invoke the method (one `World.outcome` draw), append the
record, run the recovery / navigation-retry logic. -/
def riFoundStep (w : World) (tool : String) (answers : List Bool)
    (st : ExecState) : StepRes :=
  match w.outcome st.execN with
  | StepOutcome.exc msg =>
    let st1 : ExecState := { st with
      results := st.results ++ [⟨tool, RecStatus.failed, some msg, false⟩],
      execN := st.execN + 1 }
    if tool == "playwright_navigate" then
      match answers with
      | [] => ⟨st1, [], 1⟩
      | a :: rest => ⟨st1, rest, if a then 0 else 1⟩
    else ⟨st1, answers, 1⟩
  | StepOutcome.ok =>
    ⟨{ st with
        results := st.results ++ [⟨tool, RecStatus.completed, none, false⟩],
        succ := st.succ + 1,
        execN := st.execN + 1 }, answers, 1⟩
  | StepOutcome.err =>
    if tool == "playwright_smart_click" && st.budget < 2 then
      if w.recovers st.recN then
        ⟨{ st with
            results := st.results ++ [⟨tool, RecStatus.completed, none, true⟩],
            succ := st.succ + 1, budget := st.budget + 1,
            execN := st.execN + 1, recN := st.recN + 1 }, answers, 1⟩
      else
        ⟨{ st with
            results := st.results ++ [⟨tool, RecStatus.failed, none, false⟩],
            budget := st.budget + 1, execN := st.execN + 1,
            recN := st.recN + 1 }, answers, 1⟩
    else if tool == "playwright_screenshot" && st.budget < 2 then
      if w.recovers st.recN then
        ⟨{ st with
            results := st.results ++ [⟨tool, RecStatus.completed, none, true⟩],
            succ := st.succ + 1, budget := st.budget + 1,
            execN := st.execN + 1, recN := st.recN + 1 }, answers, 1⟩
      else
        ⟨{ st with
            results := st.results ++ [⟨tool, RecStatus.failed, none, false⟩],
            budget := st.budget + 1, execN := st.execN + 1,
            recN := st.recN + 1 }, answers, 1⟩
    else
      let st1 : ExecState := { st with
        results := st.results ++ [⟨tool, RecStatus.failed, none, false⟩],
        execN := st.execN + 1 }
      if tool == "playwright_navigate" then
        match answers with
        | [] => ⟨st1, [], 1⟩
        | a :: rest => ⟨st1, rest, if a then -1 else 1⟩
      else ⟨st1, answers, 1⟩

/-- One found-tool step of the `process_natural_language` loop
(`expiremental-new.py` 1041-1184).  Faithful to the source: with the
adapter module importable (it is part of this repository) the tool method
is invoked twice — once through the adapter branch (1081-1091) and once
at the unconditional line 1138, whose result is the one recorded; and the
`else` at line 1159 is paired with `if i < len(tool_calls) - 1`, so the
failure warning and the navigation-retry prompt fire on the *last* step
(`last = true`) whatever its status. -/
def pnlFoundStep (w : World) (tool : String) (last : Bool) (answers : List Bool)
    (st : ExecState) : StepRes :=
  match w.outcome st.execN with
  | StepOutcome.exc msg =>
    let st1 : ExecState := { st with
      results := st.results ++ [⟨tool, RecStatus.failed, some msg, false⟩],
      execN := st.execN + 1 }
    if tool == "playwright_navigate" then
      match answers with
      | [] => ⟨st1, [], 1⟩
      | a :: rest => ⟨st1, rest, if a then 0 else 1⟩
    else ⟨st1, answers, 1⟩
  | _ =>
    match w.outcome (st.execN + 1) with
    | StepOutcome.exc msg =>
      let st1 : ExecState := { st with
        results := st.results ++ [⟨tool, RecStatus.failed, some msg, false⟩],
        execN := st.execN + 2 }
      if tool == "playwright_navigate" then
        match answers with
        | [] => ⟨st1, [], 1⟩
        | a :: rest => ⟨st1, rest, if a then 0 else 1⟩
      else ⟨st1, answers, 1⟩
    | o2 =>
      let good := o2 == StepOutcome.ok
      let st1 : ExecState := { st with
        results := st.results ++
          [⟨tool, if good then RecStatus.completed else RecStatus.failed,
            none, false⟩],
        succ := if good then st.succ + 1 else st.succ,
        execN := st.execN + 2 }
      if !last then ⟨st1, answers, 1⟩
      else if tool == "playwright_navigate" then
        match answers with
        | [] => ⟨st1, [], 1⟩
        | a :: rest => ⟨st1, rest, if a then -1 else 1⟩
      else ⟨st1, answers, 1⟩

theorem riFoundStep_progress (w : World) (tool : String) (answers : List Bool)
    (st : ExecState) :
    (riFoundStep w tool answers st).answers.length < answers.length ∨
      ((riFoundStep w tool answers st).answers = answers ∧
        (riFoundStep w tool answers st).offset = 1) := by
  unfold riFoundStep
  repeat' split
  all_goals first
    | exact Or.inr ⟨rfl, rfl⟩
    | (refine Or.inl ?_; simp [List.length_cons])

theorem pnlFoundStep_progress (w : World) (tool : String) (last : Bool)
    (answers : List Bool) (st : ExecState) :
    (pnlFoundStep w tool last answers st).answers.length < answers.length ∨
      ((pnlFoundStep w tool last answers st).answers = answers ∧
        (pnlFoundStep w tool last answers st).offset = 1) := by
  unfold pnlFoundStep
  repeat' split
  all_goals first
    | exact Or.inr ⟨rfl, rfl⟩
    | (refine Or.inl ?_; simp [List.length_cons])

/-- The `run_integrated` executor loop (`expiremental-new.py` 1361-1658).
A `.error` value is the `IndexError` escaping to the surrounding
`except`, which aborts the whole plan. -/
def riLoop (w : World) (plan : List String) (i : Int) (answers : List Bool)
    (st : ExecState) : Except String (List ExecutionResult) :=
  if _h : i < (plan.length : Int) then
    match pyIndex plan i with
    | none => Except.error "IndexError: list index out of range"
    | some tool =>
      if getattrFound w.attrs tool then
        riLoop w plan (i + (riFoundStep w tool answers st).offset)
          (riFoundStep w tool answers st).answers (riFoundStep w tool answers st).st
      else
        let sub := notFoundStep w.attrs st.budget tool
        riLoop w plan (i + 1) answers { st with
          results := st.results ++
            [⟨sub.1, RecStatus.failed, some ("Tool not found: " ++ tool), false⟩],
          budget := sub.2 }
  else Except.ok st.results
termination_by (answers.length, ((plan.length : Int) + 1 - i).toNat)
decreasing_by
  · rcases riFoundStep_progress w tool answers st with hp | ⟨hp, ho⟩
    · exact Prod.Lex.left _ _ hp
    · rw [hp, ho]
      exact Prod.Lex.right _ (by omega)
  · exact Prod.Lex.right _ (by omega)

/-- The `process_natural_language` executor loop (946-1205). -/
def pnlLoop (w : World) (plan : List String) (i : Int) (answers : List Bool)
    (st : ExecState) : Except String (List ExecutionResult) :=
  if _h : i < (plan.length : Int) then
    match pyIndex plan i with
    | none => Except.error "IndexError: list index out of range"
    | some tool =>
      if getattrFound w.attrs tool then
        pnlLoop w plan
          (i + (pnlFoundStep w tool (!decide (i < (plan.length : Int) - 1)) answers st).offset)
          (pnlFoundStep w tool (!decide (i < (plan.length : Int) - 1)) answers st).answers
          (pnlFoundStep w tool (!decide (i < (plan.length : Int) - 1)) answers st).st
      else
        let sub := notFoundStep w.attrs st.budget tool
        pnlLoop w plan (i + 1) answers { st with
          results := st.results ++
            [⟨sub.1, RecStatus.failed, some ("Tool not found: " ++ tool), false⟩],
          budget := sub.2 }
  else Except.ok st.results
termination_by (answers.length, ((plan.length : Int) + 1 - i).toNat)
decreasing_by
  · rcases pnlFoundStep_progress w tool (!decide (i < (plan.length : Int) - 1)) answers st
      with hp | ⟨hp, ho⟩
    · exact Prod.Lex.left _ _ hp
    · rw [hp, ho]
      exact Prod.Lex.right _ (by omega)
  · exact Prod.Lex.right _ (by omega)

/-- How the `k`-th result corresponds to the `k`-th ToolCall: it records
either the (possibly substituted) invocation of that call's tool, or a
tool-not-found failure naming that call's tool. -/
def stepRel (t : String) (r : ExecutionResult) : Prop :=
  r.tool = t ∨ r.error = some ("Tool not found: " ++ t)

theorem pyIndex_natCast {α : Type} (l : List α) (n : Nat) :
    pyIndex l ((n : Nat) : Int) = l[n]? := by
  simp [pyIndex]

theorem exists_tail_step {plan : List String} {n : Nat}
    (hn : n < plan.length)
    {e : Except String (List ExecutionResult)}
    (r : ExecutionResult) (base : List ExecutionResult)
    (hrel : stepRel plan[n] r)
    (ih : ∃ tail, e = Except.ok ((base ++ [r]) ++ tail)
        ∧ List.Forall₂ stepRel (plan.drop (n + 1)) tail) :
    ∃ tail, e = Except.ok (base ++ tail)
      ∧ List.Forall₂ stepRel (plan.drop n) tail := by
  obtain ⟨t, he, hf⟩ := ih
  refine ⟨r :: t, ?_, ?_⟩
  · rw [he, List.append_assoc]
    rfl
  · rw [List.drop_eq_getElem_cons hn]
    exact List.Forall₂.cons hrel hf

/-- With the prompt-answer list empty (every navigation-retry prompt
declined), a found-tool step of `run_integrated` appends exactly one
record for its tool and advances `i` by one. -/
theorem riFoundStep_empty (w : World) (tool : String) (st : ExecState) :
    ∃ r : ExecutionResult, r.tool = tool
      ∧ (riFoundStep w tool [] st).st.results = st.results ++ [r]
      ∧ (riFoundStep w tool [] st).answers = []
      ∧ (riFoundStep w tool [] st).offset = 1 := by
  unfold riFoundStep
  dsimp only
  repeat' split
  all_goals exact ⟨_, rfl, rfl, rfl, rfl⟩

/-- The `process_natural_language` analogue of `riFoundStep_empty`. -/
theorem pnlFoundStep_empty (w : World) (tool : String) (last : Bool)
    (st : ExecState) :
    ∃ r : ExecutionResult, r.tool = tool
      ∧ (pnlFoundStep w tool last [] st).st.results = st.results ++ [r]
      ∧ (pnlFoundStep w tool last [] st).answers = []
      ∧ (pnlFoundStep w tool last [] st).offset = 1 := by
  unfold pnlFoundStep
  dsimp only
  repeat' split
  all_goals exact ⟨_, rfl, rfl, rfl, rfl⟩

set_option maxHeartbeats 1000000 in
/-- With every navigation-retry prompt declined (no pending `y` answers),
the `run_integrated` loop appends exactly one result per remaining step. -/
theorem riLoop_no_retry (w : World) (plan : List String) :
    ∀ (m n : Nat) (st : ExecState), n + m = plan.length →
      ∃ tail, riLoop w plan ((n : Nat) : Int) [] st = Except.ok (st.results ++ tail)
        ∧ List.Forall₂ stepRel (plan.drop n) tail := by
  intro m
  induction m with
  | zero =>
    intro n st hlen
    have hc : ¬ (((n : Nat) : Int) < (plan.length : Int)) := by omega
    refine ⟨[], ?_, ?_⟩
    · rw [riLoop.eq_def, dif_neg hc]
      simp
    · have hnl : n = plan.length := by omega
      rw [hnl, List.drop_length]
      exact List.Forall₂.nil
  | succ m ih =>
    intro n st hlen
    have hn : n < plan.length := by omega
    have hc : (((n : Nat)) : Int) < (plan.length : Int) := by exact_mod_cast hn
    have hcast : (((n : Nat)) : Int) + 1 = (((n + 1 : Nat)) : Int) := by push_cast; ring
    have hidx : pyIndex plan ((n : Nat) : Int) = some plan[n] := by
      rw [pyIndex_natCast, List.getElem?_eq_getElem hn]
    rw [riLoop.eq_def, dif_pos hc]
    split
    · rename_i heq
      rw [hidx] at heq
      cases heq
    · rename_i tool heq
      rw [hidx] at heq
      injection heq with htool
      subst htool
      cases hfound : getattrFound w.attrs plan[n] with
      | true =>
        simp only [hfound, if_true]
        obtain ⟨r, hrt, hres, hans, hoff⟩ := riFoundStep_empty w plan[n] st
        rw [hoff, hans, hcast]
        have h' := ih (n + 1) (riFoundStep w plan[n] [] st).st (by omega)
        rw [hres] at h'
        exact exists_tail_step hn r st.results (Or.inl hrt) h'
      | false =>
        simp only [hfound, Bool.false_eq_true, if_false]
        rw [hcast]
        exact exists_tail_step hn
          ⟨(notFoundStep w.attrs st.budget plan[n]).1, RecStatus.failed,
            some ("Tool not found: " ++ plan[n]), false⟩ st.results (Or.inr rfl)
          (ih (n + 1) _ (by omega))

set_option maxHeartbeats 1000000 in
/-- `pnlLoop` analogue of `riLoop_no_retry`. -/
theorem pnlLoop_no_retry (w : World) (plan : List String) :
    ∀ (m n : Nat) (st : ExecState), n + m = plan.length →
      ∃ tail, pnlLoop w plan ((n : Nat) : Int) [] st = Except.ok (st.results ++ tail)
        ∧ List.Forall₂ stepRel (plan.drop n) tail := by
  intro m
  induction m with
  | zero =>
    intro n st hlen
    have hc : ¬ (((n : Nat) : Int) < (plan.length : Int)) := by omega
    refine ⟨[], ?_, ?_⟩
    · rw [pnlLoop.eq_def, dif_neg hc]
      simp
    · have hnl : n = plan.length := by omega
      rw [hnl, List.drop_length]
      exact List.Forall₂.nil
  | succ m ih =>
    intro n st hlen
    have hn : n < plan.length := by omega
    have hc : (((n : Nat)) : Int) < (plan.length : Int) := by exact_mod_cast hn
    have hcast : (((n : Nat)) : Int) + 1 = (((n + 1 : Nat)) : Int) := by push_cast; ring
    have hidx : pyIndex plan ((n : Nat) : Int) = some plan[n] := by
      rw [pyIndex_natCast, List.getElem?_eq_getElem hn]
    rw [pnlLoop.eq_def, dif_pos hc]
    split
    · rename_i heq
      rw [hidx] at heq
      cases heq
    · rename_i tool heq
      rw [hidx] at heq
      injection heq with htool
      subst htool
      cases hfound : getattrFound w.attrs plan[n] with
      | true =>
        simp only [hfound, if_true]
        obtain ⟨r, hrt, hres, hans, hoff⟩ :=
          pnlFoundStep_empty w plan[n]
            (!decide (((n : Nat) : Int) < (plan.length : Int) - 1)) st
        rw [hoff, hans, hcast]
        have h' := ih (n + 1)
          (pnlFoundStep w plan[n]
            (!decide (((n : Nat) : Int) < (plan.length : Int) - 1)) [] st).st (by omega)
        rw [hres] at h'
        exact exists_tail_step hn r st.results (Or.inl hrt) h'
      | false =>
        simp only [hfound, Bool.false_eq_true, if_false]
        rw [hcast]
        exact exists_tail_step hn
          ⟨(notFoundStep w.attrs st.budget plan[n]).1, RecStatus.failed,
            some ("Tool not found: " ++ plan[n]), false⟩ st.results (Or.inr rfl)
          (ih (n + 1) _ (by omega))

/-- C1 (amended): for every parsed plan, both executor loops continue
past failed steps and, provided every navigation-retry prompt is declined
(an accepted retry re-runs a step and appends an additional record), the
loop finishes — no step aborts it — with exactly one ExecutionResult per
ToolCall, in plan order: the `k`-th result either records that call's
(possibly substituted) tool or is a tool-not-found failure naming it. -/
theorem C1_one_result_per_toolcall (w wp : World) (plan : List String) :
    (∃ rs, riLoop w plan 0 [] initExecState = Except.ok rs
        ∧ rs.length = plan.length ∧ List.Forall₂ stepRel plan rs)
    ∧ (∃ rs, pnlLoop wp plan 0 [] initExecState = Except.ok rs
        ∧ rs.length = plan.length ∧ List.Forall₂ stepRel plan rs) := by
  constructor
  · obtain ⟨tail, heq, hf⟩ := riLoop_no_retry w plan plan.length 0 initExecState (by omega)
    rw [List.drop_zero] at hf
    refine ⟨tail, ?_, (List.Forall₂.length_eq hf).symm, hf⟩
    simpa [initExecState] using heq
  · obtain ⟨tail, heq, hf⟩ := pnlLoop_no_retry wp plan plan.length 0 initExecState (by omega)
    rw [List.drop_zero] at hf
    refine ⟨tail, ?_, (List.Forall₂.length_eq hf).symm, hf⟩
    simpa [initExecState] using heq

/-- The world of the C1 counterexample: one registered tool, every
invocation reporting status `error`, no recoveries. -/
def cexNavWorld : World :=
  ⟨[⟨"playwright_navigate", true⟩], fun _ => StepOutcome.err, fun _ => false⟩

/-- C1 counterexample: a one-step plan whose navigation fails, with the
user accepting the first retry prompt and declining afterwards, finishes
with three ExecutionResults for its single ToolCall: the retry's
`i -= 1; continue` sends `i` to `-1`, Python's negative indexing re-runs
the step, and the subsequent `i += 1` runs it a third time.  This
refutes "exactly one ExecutionResult per ToolCall regardless of
individual step outcomes" as stated. -/
theorem C1_one_result_per_toolcall_cex :
    riLoop cexNavWorld ["playwright_navigate"] 0 [true, false] initExecState
      = Except.ok
          [⟨"playwright_navigate", RecStatus.failed, none, false⟩,
           ⟨"playwright_navigate", RecStatus.failed, none, false⟩,
           ⟨"playwright_navigate", RecStatus.failed, none, false⟩]
      ∧ (["playwright_navigate"] : List String).length = 1 := by
  refine ⟨?_, rfl⟩
  simp [riLoop, cexNavWorld, riFoundStep, initExecState, pyIndex, getattrFound]

/-- The registry of the C4 failing input: the canonical target of the
alias is present, the alias itself is not. -/
def c4Registry : List Attr := [⟨"playwright_fill", true⟩]

/-- C4: with `playwright_fill` registered and a plan requesting the alias
`playwright_type`, both executor loops resolve the alias — the recorded
tool is the canonical name — but the unconditional `results.append` +
`continue` at the end of the not-found block still records the step as
failed with a "Tool not found" error, and the resolved canonical method
is never invoked: the trace is the same whatever outcomes the invocation
oracle would produce. -/
theorem C4_alias_recorded_failed (outcome : Nat → StepOutcome)
    (recovers : Nat → Bool) :
    riLoop ⟨c4Registry, outcome, recovers⟩ ["playwright_type"] 0 [] initExecState
      = Except.ok [⟨"playwright_fill", RecStatus.failed,
          some "Tool not found: playwright_type", false⟩]
    ∧ pnlLoop ⟨c4Registry, outcome, recovers⟩ ["playwright_type"] 0 [] initExecState
      = Except.ok [⟨"playwright_fill", RecStatus.failed,
          some "Tool not found: playwright_type", false⟩] := by
  constructor
  · simp [riLoop, c4Registry, initExecState, pyIndex, getattrFound,
      notFoundStep, aliasLookup]
  · simp [pnlLoop, c4Registry, initExecState, pyIndex, getattrFound,
      notFoundStep, aliasLookup]

end PlaywrightMCP
